import Mathlib

/-!
Verification of flask-pynamodb-resource against its natural-language
specification.  The definitions below are a shallow embedding of
`flask_pynamodb_resource/__init__.py`: PynamoDB attribute classes become the
inductive `AttrKind`, flask-restx field objects become `Field`, the methods of
`PynamoModel`, `ModelResource` and `IndexResource` become Lean functions, and
the PynamoDB ORM (whose behaviour depends on the remote database) is an oracle
passed in as a `Orm` record of functions together with an outcome type
`Except PyExc`.
-/

set_option maxHeartbeats 1000000

namespace FlaskPynamo

/-- Python membership test `c in s` on a string, evaluated over its characters. -/
def strContains (s : String) (c : Char) : Bool :=
  s.toList.contains c

/-- PynamoDB attribute classes relevant to `_translate_attribute`.
`MapAttributeBase` is an instance of the exact class `attributes.MapAttribute`,
`MapAttributeSub` an instance of a typed subclass (carrying the subclass name),
`MapAttributeClass` a MapAttribute class object (the `MAPMETA` branch), and
`Other` any attribute class outside the fixed set (e.g. `BinaryAttribute`).
None of the seven classes appearing in `TYPEMAP` is a subclass of another in
PynamoDB, so `isinstance` between them is plain class equality. -/
inductive AttrKind where
  | BooleanAttribute
  | UnicodeAttribute
  | TTLAttribute
  | UTCDateTimeAttribute
  | NumberAttribute
  | NumberSetAttribute
  | UnicodeSetAttribute
  | MapAttributeBase
  | MapAttributeSub (clsName : String)
  | MapAttributeClass (clsName : String)
  | ListAttributeOf (elementType : AttrKind)
  | ListAttributeUntyped
  | Other (clsName : String)
deriving DecidableEq, BEq, Repr

/-- flask-restx field objects as produced by `_translate_attribute`.
`RawMapObject` stands for `PynamoMapAttribute` (a Raw field rendered as an
object), `Nested n` for `fields.Nested` over the nested model named `n`. -/
inductive Field where
  | Boolean
  | String
  | DateTime
  | PynamoNumber
  | List (element : Field)
  | Nested (modelName : String)
  | RawMapObject
  | Raw
deriving DecidableEq, BEq, Repr

/-- `isinstance(attr, p_attr)` restricted to the classes appearing in
`PynamoModel.TYPEMAP`: since none of them subclasses another, it is class
equality. -/
def isinstanceK (attr cls : AttrKind) : Bool :=
  attr == cls

/-- `PynamoModel.TYPEMAP`, in source (dict insertion) order. -/
def TYPEMAP : List (AttrKind × Field) :=
  [(.BooleanAttribute, .Boolean),
   (.UnicodeAttribute, .String),
   (.TTLAttribute, .DateTime),
   (.UTCDateTimeAttribute, .DateTime),
   (.NumberAttribute, .PynamoNumber),
   (.NumberSetAttribute, .List .PynamoNumber),
   (.UnicodeSetAttribute, .List .String)]

/-- The `for p_attr, r_field in self.TYPEMAP.items(): if isinstance(...): break
else: Raw` loop at the end of `PynamoModel._translate_attribute`. -/
def typemap_lookup : List (AttrKind × Field) → AttrKind → Field
  | [], _ => .Raw
  | (p, f) :: rest, attr => if isinstanceK attr p then f else typemap_lookup rest attr

/-- `PynamoModel._translate_attribute(self, name, attr, namespace)`.
`modelName` is `self.name`; `attrName` is the `name` argument.  Nested-model
creation (`_get_or_create_nested`) caches by name; the resulting field is
`fields.Nested` over the model named `self.name + "." + map_name` either way. -/
def translate_attribute (modelName attrName : String) : AttrKind → Field
  | .MapAttributeBase => .RawMapObject
  | .MapAttributeSub clsName => .Nested (modelName ++ "." ++ clsName)
  | .MapAttributeClass _ => .Nested (modelName ++ "." ++ attrName)
  | .ListAttributeOf e => .List (translate_attribute modelName attrName e)
  | .ListAttributeUntyped => .List .String
  | attr => typemap_lookup TYPEMAP attr

/-! ## PynamoNumber.format

Python values that can reach `PynamoNumber.format` are modelled by `PyVal`;
floats are modelled as exact rationals (only decimal literals arise here).
`Except String` models raising `ValueError` with the given message. -/

/-- Exact value of a decimal literal: `num / 10 ^ exp`.  Only plain decimal
strings reach `float()` in this code path, so a float value is represented by
the exact decimal rational it denotes, kept in this unnormalized form. -/
structure Dec where
  num : Int
  exp : Nat
deriving DecidableEq, Repr

inductive PyVal where
  | pynone
  | pystr (s : String)
  | pyint (n : Int)
  | pyfloat (d : Dec)
  | pyother (desc : String)
deriving DecidableEq, Repr

/-- Numeric value of a non-empty all-digit character list. -/
def digitsVal? (cs : List Char) : Option Nat :=
  if cs ≠ [] ∧ cs.all Char.isDigit then
    some (cs.foldl (fun a c => a * 10 + (c.toNat - 48)) 0)
  else none

/-- Python `int(s)` for decimal strings: optional minus sign then digits;
`none` models `int()` raising `ValueError`. -/
def parseIntStr? (s : String) : Option Int :=
  match s.toList with
  | '-' :: rest => (digitsVal? rest).map (fun n => -(n : Int))
  | cs => (digitsVal? cs).map (fun n => (n : Int))

/-- Split a character list on the dot character, like `str.split`. -/
def splitOnDot : List Char → List (List Char)
  | [] => [[]]
  | c :: rest =>
    let r := splitOnDot rest
    if c = '.' then [] :: r
    else
      match r with
      | [] => [[c]]
      | h :: t => (c :: h) :: t

/-- Value of an unsigned decimal `ipcs "." fpcs`; at least one side must be
non-empty and both must be all digits (Python accepts `"3."` and `".5"`). -/
def decimalVal? (ipcs fpcs : List Char) : Option Dec :=
  if (ipcs ≠ [] ∨ fpcs ≠ []) ∧ ipcs.all Char.isDigit ∧ fpcs.all Char.isDigit then
    let ipv : Nat := ipcs.foldl (fun a c => a * 10 + (c.toNat - 48)) 0
    let fpv : Nat := fpcs.foldl (fun a c => a * 10 + (c.toNat - 48)) 0
    some ⟨((ipv * 10 ^ fpcs.length + fpv : Nat) : Int), fpcs.length⟩
  else none

/-- Python `float(s)` for plain decimal strings containing one dot;
`none` models `float()` raising `ValueError`. -/
def parseFloatStr? (s : String) : Option Dec :=
  match splitOnDot s.toList with
  | [ip, fp] =>
    match ip with
    | '-' :: rest => (decimalVal? rest fp).map (fun d => ⟨-d.num, d.exp⟩)
    | ipcs => decimalVal? ipcs fp
  | _ => none

/-- `PynamoNumber.format(self, value)`.  Every `Except.error` path is a
`ValueError`: the two parse failures are raised by `float()` / `int()`, the
final one is the explicit `raise ValueError('Unsupported number format')`. -/
def PynamoNumber.format : PyVal → Except String PyVal
  | .pynone => .ok .pynone
  | .pystr s =>
    if strContains s '.' then
      match parseFloatStr? s with
      | some q => .ok (.pyfloat q)
      | none => .error "could not convert string to float"
    else
      match parseIntStr? s with
      | some n => .ok (.pyint n)
      | none => .error "invalid literal for int with base 10"
  | .pyint n => .ok (.pyint n)
  | .pyfloat q => .ok (.pyfloat q)
  | .pyother _ => .error "Unsupported number format"

/-! ## Route registration

`ModelResource._register_routes` / `IndexResource._register_routes` add routes
to a flask-restx `Namespace`.  The namespace is modelled as the list of model
names and resource routes added so far; `add_resource(cls, url, methods=...)`
appends a route.  For `IndexResource` no `methods` argument is passed, so
flask-restx derives the method list from the handlers defined on the class,
which is only `get`. -/

structure Route where
  path : String
  methods : List String
deriving DecidableEq, Repr

structure NsState where
  models : List String
  resources : List Route
deriving DecidableEq, Repr

def NsState.add_model (ns : NsState) (n : String) : NsState :=
  { ns with models := ns.models ++ [n] }

def NsState.add_resource (ns : NsState) (path : String) (methods : List String) : NsState :=
  { ns with resources := ns.resources ++ [⟨path, methods⟩] }

/-- The class-level data of a generated resource class: `cls.name` (the index
name, for index resources), `cls.hash_keyname`, `cls.range_keyname` (None when
the model or index has no range key), and the model's attributes. -/
structure AttrDef where
  name : String
  kind : AttrKind
  is_hash_key : Bool
  is_range_key : Bool
deriving DecidableEq, Repr

structure ResourceCls where
  name : String
  hash_keyname : String
  range_keyname : Option String
  attrs : List AttrDef
deriving Repr

/-- `ModelResource._register_routes(cls, ns)` (route_doc dictionaries, which
only affect rendered documentation, are not modelled). -/
def ModelResource.register_routes (cls : ResourceCls) (ns : NsState) : NsState :=
  let ns := ns.add_model cls.name
  let ns := ns.add_resource "/" ["get", "post"]
  let ns := ns.add_resource ("/<" ++ cls.hash_keyname ++ ">")
      (match cls.range_keyname with
       | some _ => ["get"]
       | none => ["delete", "get", "put"])
  match cls.range_keyname with
  | some rk =>
      ns.add_resource ("/<" ++ cls.hash_keyname ++ ">/<" ++ rk ++ ">")
        ["delete", "get", "put"]
  | none => ns

/-- `IndexResource._register_routes(cls, ns)`. -/
def IndexResource.register_routes (cls : ResourceCls) (ns : NsState) : NsState :=
  let ns := ns.add_model cls.name
  let ns := ns.add_resource ("/" ++ cls.name ++ "/") ["get"]
  let ns := ns.add_resource ("/" ++ cls.name ++ "/<" ++ cls.hash_keyname ++ ">") ["get"]
  match cls.range_keyname with
  | some rk =>
      ns.add_resource ("/" ++ cls.name ++ "/<" ++ cls.hash_keyname ++ ">/<" ++ rk ++ ">")
        ["get"]
  | none => ns

/-- The route-registering part of `ModelResource.register(cls, app, url_prefix)`:
the model routes are registered first, then `_register_routes` of the resource
generated for each secondary index found on the model. -/
def ModelResource.register (cls : ResourceCls) (idxs : List ResourceCls)
    (ns : NsState) : NsState :=
  idxs.foldl (fun s i => IndexResource.register_routes i s)
    (ModelResource.register_routes cls ns)

/-- The routes the specification promises for one secondary index. -/
def spec_index_routes (i : ResourceCls) : List Route :=
  [⟨"/" ++ i.name ++ "/", ["get"]⟩,
   ⟨"/" ++ i.name ++ "/<" ++ i.hash_keyname ++ ">", ["get"]⟩] ++
  match i.range_keyname with
  | some rk => [⟨"/" ++ i.name ++ "/<" ++ i.hash_keyname ++ ">/<" ++ rk ++ ">", ["get"]⟩]
  | none => []

/-- The routes the specification promises for all secondary indexes, in
registration order. -/
def spec_routes_of_indexes : List ResourceCls → List Route
  | [] => []
  | i :: rest => spec_index_routes i ++ spec_routes_of_indexes rest

/-! ## Request handlers

The PynamoDB ORM is an oracle: each call site returns either a value or a
raised exception (`PyExc`).  `DbCall` records which ORM calls a handler
performed, in order, so that pass-through and the absence of writes are
provable.  Records, request bodies and URL keyword arguments are association
lists from attribute name to (string-serialized) value, mirroring the JSON
dictionaries the code manipulates. -/

abbrev Data := List (String × String)

inductive PyExc where
  | doesNotExist
  | attrError (msg : String)
  | putError (msg : String)
  | keyError (msg : String)
  | otherExc (msg : String)
deriving DecidableEq, Repr

/-- Python `str(e)`. -/
def PyExc.msg : PyExc → String
  | .doesNotExist => "DoesNotExist"
  | .attrError s => s
  | .putError s => s
  | .keyError s => s
  | .otherExc s => s

/-- One ORM call, with the arguments it was given. -/
inductive DbCall where
  | getRecord (hash : String) (range : Option String)
  | query (hash : String) (filters : List (String × String))
  | scan (filters : List (String × String))
  | save (record : Data)
  | deleteRecord (hash : String) (range : Option String)
deriving DecidableEq, Repr

/-- Oracle for the PynamoDB model's class methods: the outcome of each call
the handlers can make.  `deleteRecord` is `Model.get(...).delete()`'s second
step, keyed the same way as the `get` that produced the object. -/
structure Orm where
  getRecord : String → Option String → Except PyExc Data
  query : String → List (String × String) → Except PyExc (List Data)
  scan : List (String × String) → Except PyExc (List Data)
  save : Data → Except PyExc Unit
  deleteRecord : String → Option String → Except PyExc Unit

/-- Flask responses as returned by the handlers: a marshalled record (HTTP
200), a list of marshalled records (200), a created record with its Location
header (201), an error body with explicit status, or the empty 204 body. -/
inductive Resp where
  | record (r : Data)
  | records (rs : List Data)
  | created (r : Data) (location : String)
  | err (message : String) (status : Nat)
  | noContent
deriving DecidableEq, Repr

/-- `ModelResource._get_filter(self, param, value)`: query-string parameters
naming a non-key attribute become filter conditions; unknown names and key
attributes are ignored. -/
def ModelResource.get_filter (cls : ResourceCls) (param value : String) :
    Option (String × String) :=
  match cls.attrs.find? (fun a => a.name == param) with
  | none => none
  | some a => if a.is_hash_key || a.is_range_key then none else some (param, value)

/-- The filter-building loop at the top of `ModelResource.get`: the conjunction
of conditions is modelled as the list of conditions, in request-argument
order (the empty list standing for `filters = None`). -/
def build_filters (cls : ResourceCls) (args : Data) : List (String × String) :=
  args.filterMap (fun kv => ModelResource.get_filter cls kv.1 kv.2)

/-- `ModelResource.get(self, **kwargs)`.  `hashArg` / `rangeArg` are the URL
path parameters present in `kwargs` for the route that matched (marshalling of
results is the identity on the association-list representation). -/
def ModelResource.get_req (cls : ResourceCls) (orm : Orm) (args : Data)
    (hashArg rangeArg : Option String) : List DbCall × Resp :=
  let filters := build_filters cls args
  match hashArg with
  | some hv =>
    match cls.range_keyname with
    | some _ =>
      match rangeArg with
      | some rv =>
        ([.getRecord hv (some rv)],
         match orm.getRecord hv (some rv) with
         | .ok r => .record r
         | .error .doesNotExist => .err "Record not found" 404
         | .error e => .err e.msg 500)
      | none =>
        ([.query hv filters],
         match orm.query hv filters with
         | .ok rs => .records rs
         | .error .doesNotExist => .err "Record not found" 404
         | .error e => .err e.msg 500)
    | none =>
      ([.getRecord hv none],
       match orm.getRecord hv none with
       | .ok r => .record r
       | .error .doesNotExist => .err "Record not found" 404
       | .error e => .err e.msg 500)
  | none =>
    ([.scan filters],
     match orm.scan filters with
     | .ok rs => .records rs
     | .error .doesNotExist => .err "Record not found" 404
     | .error e => .err e.msg 500)

/-- `ModelResource.delete(self, **kwargs)`.  A `DoesNotExist` from the `get` is
swallowed (`pass`) and the trailing `return ({'message': 'Record not found'},
404)` fires; any other exception returns 500; when both the `get` and the
`delete` succeed the handler returns `('', 204)`. -/
def ModelResource.delete_req (cls : ResourceCls) (orm : Orm)
    (hashArg rangeArg : Option String) : List DbCall × Resp :=
  match hashArg with
  | some hv =>
    match cls.range_keyname with
    | some _ =>
      match rangeArg with
      | some rv =>
        (match orm.getRecord hv (some rv) with
         | .ok _ =>
           ([.getRecord hv (some rv), .deleteRecord hv (some rv)],
            match orm.deleteRecord hv (some rv) with
            | .ok _ => .noContent
            | .error .doesNotExist => .err "Record not found" 404
            | .error e => .err e.msg 500)
         | .error .doesNotExist => ([.getRecord hv (some rv)], .err "Record not found" 404)
         | .error e => ([.getRecord hv (some rv)], .err e.msg 500))
      | none => ([], .err "Record not found" 404)
    | none =>
      (match orm.getRecord hv none with
       | .ok _ =>
         ([.getRecord hv none, .deleteRecord hv none],
          match orm.deleteRecord hv none with
          | .ok _ => .noContent
          | .error .doesNotExist => .err "Record not found" 404
          | .error e => .err e.msg 500)
       | .error .doesNotExist => ([.getRecord hv none], .err "Record not found" 404)
       | .error e => ([.getRecord hv none], .err e.msg 500))
  | none => ([], .err "Record not found" 404)

/-! ## ModelResource._save

`_save` handles POST (`create=True`) and PUT (`create=False`).  The request
body (`_request_data()`) is `none` when it is not a JSON object / form dict
(`not isinstance(data, dict)`), otherwise the dict itself.
`_deserialize_dict` mutates the body's values through the fields' parsers; it
is passed in as the oracle `dser` (raising `AttributeError` on unknown keys,
or whatever a parser raises). -/

/-- The `for k, v in kwargs.items(): if data[k] != v: return 400` loop of
`_save`.  `data[k]` on a missing key raises `KeyError`. -/
def checkKeys : Data → Data → Except PyExc Bool
  | [], _ => .ok false
  | (k, v) :: rest, data =>
    match data.lookup k with
    | none => .error (.keyError k)
    | some dv => if dv ≠ v then .ok true else checkKeys rest data

/-- The exception translation of `_save`'s outer try:
`except (AttributeError, PutError)` becomes 400 with `str(e)`,
`except Exception` becomes 500 with `str(e)`. -/
def save_exc_resp : PyExc → Resp
  | .attrError s => .err s 400
  | .putError s => .err s 400
  | e => .err e.msg 500

/-- The tail of `_save` from the `old_obj` lookup on: `get` the existing
record (`DoesNotExist` makes `old_obj` None), then branch on `create` and on
existence, saving `model(**data)` where required. -/
def save_action (orm : Orm) (create : Bool) (data : Data) (hv : String)
    (rv : Option String) : List DbCall × Resp :=
  match orm.getRecord hv rv with
  | .error .doesNotExist =>
    if create then
      match orm.save data with
      | .ok _ =>
        ([.getRecord hv rv, .save data],
         .created data (match rv with | some rvv => hv ++ "/" ++ rvv | none => hv))
      | .error e => ([.getRecord hv rv, .save data], save_exc_resp e)
    else
      ([.getRecord hv rv], .err "Record not found" 404)
  | .error e => ([.getRecord hv rv], save_exc_resp e)
  | .ok _ =>
    if create then
      ([.getRecord hv rv], .err "Record already exists" 409)
    else
      match orm.save data with
      | .ok _ => ([.getRecord hv rv, .save data], .record data)
      | .error e => ([.getRecord hv rv, .save data], save_exc_resp e)

/-- `ModelResource._save(self, create, **kwargs)`.  (In the Python source the
slash-rejection messages wrap the key name in single quotes; the quotes are
elided here.) -/
def ModelResource.save_req (cls : ResourceCls) (orm : Orm)
    (dser : Data → Except PyExc Data) (create : Bool)
    (kwargs : Data) (body : Option Data) : List DbCall × Resp :=
  match body with
  | none => ([], .err "Invalid record type" 400)
  | some data0 =>
    match checkKeys kwargs data0 with
    | .error e => ([], save_exc_resp e)
    | .ok true => ([], .err "Cannot change hash or range keys with PUT" 400)
    | .ok false =>
      match dser data0 with
      | .error e => ([], save_exc_resp e)
      | .ok data =>
        match data.lookup cls.hash_keyname with
        | none => ([], save_exc_resp (.keyError cls.hash_keyname))
        | some hv =>
          if strContains hv '/' then
            ([], .err (cls.hash_keyname ++ " may not contain forward slashes") 400)
          else
            match cls.range_keyname with
            | some rk =>
              match data.lookup rk with
              | none => ([], save_exc_resp (.keyError rk))
              | some rv =>
                if strContains rv '/' then
                  ([], .err (rk ++ " may not contain forward slashes") 400)
                else save_action orm create data hv (some rv)
            | none => save_action orm create data hv none

/-- `ModelResource.post`: `_save(create=True)`.  The POST route is only
registered on "/", which carries no URL parameters. -/
def ModelResource.post_req (cls : ResourceCls) (orm : Orm)
    (dser : Data → Except PyExc Data) (kwargs : Data) (body : Option Data) :
    List DbCall × Resp :=
  ModelResource.save_req cls orm dser true kwargs body

/-- `ModelResource.put`: `_save(create=False)`. -/
def ModelResource.put_req (cls : ResourceCls) (orm : Orm)
    (dser : Data → Except PyExc Data) (kwargs : Data) (body : Option Data) :
    List DbCall × Resp :=
  ModelResource.save_req cls orm dser false kwargs body

/-- The identity `_deserialize_dict` oracle: every value parses to itself. -/
def dserId : Data → Except PyExc Data := fun d => .ok d

/-! ## PynamoModel._translate and the generated schema

`PynamoModel` is a dict subclass: `self[name] = field` inserts preserving
insertion order, overwriting in place; `self.required` is a set of names.
Dicts are modelled as association lists with `dinsert` (Python dict update
semantics) and sets as duplicate-free lists with `sinsert`. -/

/-- Python `set.add` on a list representation. -/
def sinsert (l : List String) (x : String) : List String :=
  if x ∈ l then l else l ++ [x]

/-- Python `dict.__setitem__` on an association-list representation:
overwrite in place if present, else append. -/
def dinsert (d : List (String × Field)) (k : String) (v : Field) :
    List (String × Field) :=
  if d.any (fun p => p.1 == k) then
    d.map (fun p => if p.1 == k then (k, v) else p)
  else d ++ [(k, v)]

/-- The first loop of `PynamoModel._translate`: for every attribute of the
base, install its translated field and add hash/range key names to
`self.required`. -/
def translateAttrsInto (modelName : String) :
    List (String × Field) → List String → List AttrDef →
    List (String × Field) × List String
  | d, req, [] => (d, req)
  | d, req, a :: rest =>
    translateAttrsInto modelName
      (dinsert d a.name (translate_attribute modelName a.name a.kind))
      (if a.is_hash_key then sinsert req a.name
       else if a.is_range_key then sinsert req a.name else req)
      rest

/-- PynamoDB projection classes.  `KeysOnlyProjection` and any other
projection class take the same `else: return` branch in `_translate`; both are
kept to state the claim as written. -/
inductive Projection where
  | allProj
  | includeProj (non_key_attributes : List String)
  | keysOnlyProj
  | otherProj
deriving DecidableEq, Repr

/-- A secondary index: its name, the attributes declared on the index class
(`get_attributes(base)` — its key attributes), its `Meta.projection`, and
the parent model's attributes (`get_attributes(base.Meta.model)`). -/
structure IndexDef where
  name : String
  attrs : List AttrDef
  projection : Projection
  parentAttrs : List AttrDef
deriving Repr

/-- The projection loop of `PynamoModel._translate`: install the translated
parent attribute for every parent attribute whose name is in `project_keys`. -/
def projectInto (modelName : String) :
    List (String × Field) → List AttrDef → List String → List (String × Field)
  | d, [], _ => d
  | d, a :: rest, pk =>
    projectInto modelName
      (if a.name ∈ pk then
        dinsert d a.name (translate_attribute modelName a.name a.kind)
       else d)
      rest pk

/-- `PynamoModel._translate` for a model base: yields the field dict and the
required set. -/
def PynamoModel.translate (modelName : String) (attrs : List AttrDef) :
    List (String × Field) × List String :=
  translateAttrsInto modelName [] [] attrs

/-- `PynamoModel._translate` for an index base: the index's own attributes
first, then the projected parent attributes — all of them for `AllProjection`,
the listed `non_key_attributes` for `IncludeProjection`, none otherwise. -/
def PynamoModel.translateIndex (idx : IndexDef) :
    List (String × Field) × List String :=
  let base := translateAttrsInto idx.name [] [] idx.attrs
  match idx.projection with
  | .includeProj pk => (projectInto idx.name base.1 idx.parentAttrs pk, base.2)
  | .allProj =>
      (projectInto idx.name base.1 idx.parentAttrs (idx.parentAttrs.map AttrDef.name),
       base.2)
  | _ => base

/-- The wire schema produced by the `PynamoModel._schema` property. -/
structure Schema where
  required : List String
  properties : List (String × Field)
  type : String
deriving DecidableEq, Repr

/-- `PynamoModel._schema`. -/
def PynamoModel.schema (t : List (String × Field) × List String) : Schema :=
  ⟨t.2, t.1, "object"⟩

/-! Concrete model/index/oracle instances used by the witness theorems
(patterned on the models in the repository's examples). -/

def attrsHR : List AttrDef :=
  [⟨"forum", .UnicodeAttribute, true, false⟩,
   ⟨"thread", .UnicodeAttribute, false, true⟩,
   ⟨"views", .NumberAttribute, false, false⟩]

/-- A hash+range model resource class. -/
def clsHR : ResourceCls := ⟨"TestModel", "forum", some "thread", attrsHR⟩

/-- A hash-only model resource class. -/
def clsH : ResourceCls :=
  ⟨"OfficeModel", "office", none, [⟨"office", .UnicodeAttribute, true, false⟩]⟩

/-- An oracle on which every read raises `DoesNotExist`. -/
def ormDNE : Orm :=
  ⟨fun _ _ => .error .doesNotExist, fun _ _ => .ok [], fun _ => .ok [],
   fun _ => .ok (), fun _ _ => .ok ()⟩

/-- An oracle on which every call succeeds (reads return empty results). -/
def ormOkEmpty : Orm :=
  ⟨fun _ _ => .ok [], fun _ _ => .ok [], fun _ => .ok [],
   fun _ => .ok (), fun _ _ => .ok ()⟩

/-- An oracle on which every call raises a generic exception. -/
def ormBoom : Orm :=
  ⟨fun _ _ => .error (.otherExc "boom"), fun _ _ => .error (.otherExc "boom"),
   fun _ => .error (.otherExc "boom"), fun _ => .error (.otherExc "boom"),
   fun _ _ => .error (.otherExc "boom")⟩

/-- A secondary index with a single hash-key attribute (like `ViewIndex` in
the repository's examples), under the three projection classes. -/
def idxAttrs : List AttrDef := [⟨"view", .NumberAttribute, true, false⟩]

def idxAll : IndexDef := ⟨"viewIdx", idxAttrs, .allProj, attrsHR⟩

def idxInc : IndexDef := ⟨"incIdx", idxAttrs, .includeProj ["views"], attrsHR⟩

def idxKO : IndexDef := ⟨"koIdx", idxAttrs, .keysOnlyProj, attrsHR⟩

lemma IndexResource.register_routes_resources (i : ResourceCls) (ns : NsState) :
    (IndexResource.register_routes i ns).resources =
      ns.resources ++ spec_index_routes i := by
  cases h : i.range_keyname <;>
    simp [IndexResource.register_routes, NsState.add_model, NsState.add_resource,
      spec_index_routes, h]

lemma foldl_index_register_resources (idxs : List ResourceCls) (ns : NsState) :
    (idxs.foldl (fun s i => IndexResource.register_routes i s) ns).resources =
      ns.resources ++ spec_routes_of_indexes idxs := by
  induction idxs generalizing ns with
  | nil => simp [spec_routes_of_indexes]
  | cons i rest ih =>
      simp [List.foldl_cons, ih, IndexResource.register_routes_resources,
        spec_routes_of_indexes]

/-- If every URL keyword argument has a same-named body field and some such
field's value differs, the kwargs-consistency loop of `_save` reports a
mismatch. -/
lemma checkKeys_mismatch (kwargs data : Data)
    (hall : ∀ p ∈ kwargs, (data.lookup p.1).isSome = true)
    (k v dv : String) (hmem : (k, v) ∈ kwargs)
    (hdv : data.lookup k = some dv) (hne : dv ≠ v) :
    checkKeys kwargs data = .ok true := by
  induction kwargs with
  | nil => cases hmem
  | cons p rest ih =>
    obtain ⟨k0, v0⟩ := p
    obtain ⟨dv0, hdv0⟩ :=
      Option.isSome_iff_exists.mp (hall (k0, v0) (List.mem_cons_self _ _))
    by_cases hne0 : dv0 ≠ v0
    · simp [checkKeys, hdv0, hne0]
    · push_neg at hne0
      subst hne0
      rcases List.mem_cons.mp hmem with heq | hmem'
      · obtain ⟨hk, hv⟩ := Prod.mk.injEq .. ▸ heq
        subst hk hv
        rw [hdv] at hdv0
        exact absurd (Option.some.injEq .. ▸ hdv0) hne
      · have := ih (fun q hq => hall q (List.mem_cons_of_mem _ hq)) hmem'
        simp [checkKeys, hdv0, this]

lemma sinsert_mem (l : List String) (x n : String) :
    n ∈ sinsert l x ↔ n ∈ l ∨ n = x := by
  by_cases hx : x ∈ l
  · simp only [sinsert, if_pos hx]
    constructor
    · exact Or.inl
    · intro h
      cases h with
      | inl h => exact h
      | inr h => exact h ▸ hx
  · simp [sinsert, if_neg hx]

lemma map_fst_replace (d : List (String × Field)) (k : String) (v : Field) :
    (d.map (fun p => if p.1 == k then (k, v) else p)).map Prod.fst =
      d.map Prod.fst := by
  induction d with
  | nil => rfl
  | cons p rest ih =>
    simp only [List.map_cons, ih]
    by_cases h : p.1 = k
    · simp [beq_iff_eq, h]
    · simp [beq_iff_eq, h]

lemma dinsert_keys_mem (d : List (String × Field)) (k : String) (v : Field)
    (n : String) :
    n ∈ (dinsert d k v).map Prod.fst ↔ n ∈ d.map Prod.fst ∨ n = k := by
  unfold dinsert
  split
  · rename_i hany
    rw [map_fst_replace]
    have hk : k ∈ d.map Prod.fst := by
      rcases List.any_eq_true.mp hany with ⟨p, hp, hbeq⟩
      have hpk : p.1 = k := by simpa using hbeq
      exact hpk ▸ List.mem_map_of_mem Prod.fst hp
    constructor
    · exact Or.inl
    · intro h
      cases h with
      | inl h => exact h
      | inr h => exact h ▸ hk
  · simp [List.mem_append]

lemma dinsert_not_mem (d : List (String × Field)) (k : String) (v : Field)
    (h : k ∉ d.map Prod.fst) : dinsert d k v = d ++ [(k, v)] := by
  have hany : d.any (fun p => p.1 == k) = false := by
    rw [List.any_eq_false]
    intro p hp
    simp only [beq_iff_eq]
    intro hk
    exact h (hk ▸ List.mem_map_of_mem Prod.fst hp)
  simp [dinsert, hany]

lemma translateAttrsInto_keys_mem (mn : String) (attrs : List AttrDef)
    (d : List (String × Field)) (req : List String) (n : String) :
    n ∈ (translateAttrsInto mn d req attrs).1.map Prod.fst ↔
      n ∈ d.map Prod.fst ∨ ∃ a ∈ attrs, a.name = n := by
  induction attrs generalizing d req with
  | nil => simp [translateAttrsInto]
  | cons a rest ih =>
    rw [translateAttrsInto, ih, dinsert_keys_mem]
    constructor
    · rintro ((h | rfl) | ⟨b, hb, rfl⟩)
      · exact Or.inl h
      · exact Or.inr ⟨a, List.mem_cons_self _ _, rfl⟩
      · exact Or.inr ⟨b, List.mem_cons_of_mem _ hb, rfl⟩
    · rintro (h | ⟨b, hb, rfl⟩)
      · exact Or.inl (Or.inl h)
      · rcases List.mem_cons.mp hb with rfl | hb'
        · exact Or.inl (Or.inr rfl)
        · exact Or.inr ⟨b, hb', rfl⟩

lemma translateAttrsInto_fst_eq (mn : String) (attrs : List AttrDef)
    (d : List (String × Field)) (req : List String)
    (hd : ∀ a ∈ attrs, a.name ∉ d.map Prod.fst)
    (hnd : (attrs.map AttrDef.name).Nodup) :
    (translateAttrsInto mn d req attrs).1 =
      d ++ attrs.map (fun a => (a.name, translate_attribute mn a.name a.kind)) := by
  induction attrs generalizing d req with
  | nil => simp [translateAttrsInto]
  | cons a rest ih =>
    rw [List.map_cons, List.nodup_cons] at hnd
    rw [translateAttrsInto,
      dinsert_not_mem _ _ _ (hd a (List.mem_cons_self _ _)),
      ih _ _ ?_ hnd.2]
    · simp
    · intro b hb
      simp only [List.map_append, List.mem_append]
      rintro (h | h)
      · exact hd b (List.mem_cons_of_mem _ hb) h
      · simp only [List.map_cons, List.map_nil, List.mem_singleton] at h
        exact hnd.1 (h ▸ List.mem_map_of_mem AttrDef.name hb)

lemma translateAttrsInto_req_mem (mn : String) (attrs : List AttrDef)
    (d : List (String × Field)) (req : List String) (n : String) :
    n ∈ (translateAttrsInto mn d req attrs).2 ↔
      n ∈ req ∨ ∃ a ∈ attrs, a.name = n ∧
        (a.is_hash_key = true ∨ a.is_range_key = true) := by
  induction attrs generalizing d req with
  | nil => simp [translateAttrsInto]
  | cons a rest ih =>
    rw [translateAttrsInto, ih]
    have hstep : ∀ m : String,
        (m ∈ (if a.is_hash_key then sinsert req a.name
              else if a.is_range_key then sinsert req a.name else req)) ↔
          (m ∈ req ∨ (m = a.name ∧
            (a.is_hash_key = true ∨ a.is_range_key = true))) := by
      intro m
      by_cases hh : a.is_hash_key
      · simp [hh, sinsert_mem]
      · by_cases hr : a.is_range_key
        · simp [hh, hr, sinsert_mem]
        · simp [hh, hr]
    rw [hstep]
    constructor
    · rintro ((h | h) | ⟨b, hb, hbn, hbk⟩)
      · exact Or.inl h
      · exact Or.inr ⟨a, List.mem_cons_self _ _, h.1.symm, h.2⟩
      · exact Or.inr ⟨b, List.mem_cons_of_mem _ hb, hbn, hbk⟩
    · rintro (h | ⟨b, hb, hbn, hbk⟩)
      · exact Or.inl (Or.inl h)
      · rcases List.mem_cons.mp hb with rfl | hb'
        · exact Or.inl (Or.inr ⟨hbn.symm, hbk⟩)
        · exact Or.inr ⟨b, hb', hbn, hbk⟩

lemma projectInto_keys_mem (mn : String) (ps : List AttrDef)
    (d : List (String × Field)) (pk : List String) (n : String) :
    n ∈ (projectInto mn d ps pk).map Prod.fst ↔
      n ∈ d.map Prod.fst ∨ ∃ a ∈ ps, a.name = n ∧ a.name ∈ pk := by
  induction ps generalizing d with
  | nil => simp [projectInto]
  | cons a rest ih =>
    rw [projectInto, ih]
    by_cases hp : a.name ∈ pk
    · rw [if_pos hp, dinsert_keys_mem]
      constructor
      · rintro ((h | rfl) | ⟨b, hb, rfl, hbpk⟩)
        · exact Or.inl h
        · exact Or.inr ⟨a, List.mem_cons_self _ _, rfl, hp⟩
        · exact Or.inr ⟨b, List.mem_cons_of_mem _ hb, rfl, hbpk⟩
      · rintro (h | ⟨b, hb, rfl, hbpk⟩)
        · exact Or.inl (Or.inl h)
        · rcases List.mem_cons.mp hb with rfl | hb'
          · exact Or.inl (Or.inr rfl)
          · exact Or.inr ⟨b, hb', rfl, hbpk⟩
    · rw [if_neg hp]
      constructor
      · rintro (h | ⟨b, hb, rfl, hbpk⟩)
        · exact Or.inl h
        · exact Or.inr ⟨b, List.mem_cons_of_mem _ hb, rfl, hbpk⟩
      · rintro (h | ⟨b, hb, rfl, hbpk⟩)
        · exact Or.inl h
        · rcases List.mem_cons.mp hb with rfl | hb'
          · exact absurd hbpk hp
          · exact Or.inr ⟨b, hb', rfl, hbpk⟩

end FlaskPynamo

open FlaskPynamo

/-- C1: the generated route table is determined solely by the key topology.
A hash-only model gets route "/" with methods GET and POST and route
"/<hash_keyname>" with DELETE, GET and PUT; a hash+range model gets "/" with
GET and POST, "/<hash_keyname>" with GET only, and
"/<hash_keyname>/<range_keyname>" with DELETE, GET and PUT; every secondary
index additionally gets routes "/<index_name>/" and
"/<index_name>/<hash_keyname>", plus "/<index_name>/<hash_keyname>/<range_keyname>"
when the index has a range key. -/
theorem C1_route_table (n h r : String) (attrs : List AttrDef)
    (idxs : List ResourceCls) :
    (ModelResource.register ⟨n, h, none, attrs⟩ idxs ⟨[], []⟩).resources =
      [⟨"/", ["get", "post"]⟩,
       ⟨"/<" ++ h ++ ">", ["delete", "get", "put"]⟩] ++ spec_routes_of_indexes idxs
  ∧ (ModelResource.register ⟨n, h, some r, attrs⟩ idxs ⟨[], []⟩).resources =
      [⟨"/", ["get", "post"]⟩,
       ⟨"/<" ++ h ++ ">", ["get"]⟩,
       ⟨"/<" ++ h ++ ">/<" ++ r ++ ">", ["delete", "get", "put"]⟩] ++
        spec_routes_of_indexes idxs
  ∧ (∀ i ∈ idxs, spec_index_routes i =
      [⟨"/" ++ i.name ++ "/", ["get"]⟩,
       ⟨"/" ++ i.name ++ "/<" ++ i.hash_keyname ++ ">", ["get"]⟩] ++
      match i.range_keyname with
      | some rk => [⟨"/" ++ i.name ++ "/<" ++ i.hash_keyname ++ ">/<" ++ rk ++ ">", ["get"]⟩]
      | none => []) := by
  refine ⟨?_, ?_, fun i _ => rfl⟩ <;>
    simp [ModelResource.register, foldl_index_register_resources,
      ModelResource.register_routes, NsState.add_model, NsState.add_resource]

/-- C2: the attribute-to-field translation is a pure lookup over the fixed
TYPEMAP table: BooleanAttribute ↦ Boolean, UnicodeAttribute ↦ String,
TTLAttribute and UTCDateTimeAttribute ↦ DateTime, NumberAttribute ↦ the numeric
field, NumberSetAttribute ↦ a list of numeric fields, UnicodeSetAttribute ↦ a
list of Strings; any attribute class outside this fixed set, other than map and
list attributes (which get object/nested resp. list fields), is mapped to Raw. -/
theorem C2_typemap_translation (mn an : String) :
    translate_attribute mn an .BooleanAttribute = .Boolean
  ∧ translate_attribute mn an .UnicodeAttribute = .String
  ∧ translate_attribute mn an .TTLAttribute = .DateTime
  ∧ translate_attribute mn an .UTCDateTimeAttribute = .DateTime
  ∧ translate_attribute mn an .NumberAttribute = .PynamoNumber
  ∧ translate_attribute mn an .NumberSetAttribute = .List .PynamoNumber
  ∧ translate_attribute mn an .UnicodeSetAttribute = .List .String
  ∧ translate_attribute mn an .MapAttributeBase = .RawMapObject
  ∧ (∀ c, translate_attribute mn an (.MapAttributeSub c) = .Nested (mn ++ "." ++ c))
  ∧ (∀ e, translate_attribute mn an (.ListAttributeOf e) =
      .List (translate_attribute mn an e))
  ∧ translate_attribute mn an .ListAttributeUntyped = .List .String
  ∧ (∀ c, translate_attribute mn an (.Other c) = .Raw) := by
  refine ⟨rfl, rfl, rfl, rfl, rfl, rfl, rfl, rfl, fun c => rfl, fun e => rfl, rfl,
    fun c => rfl⟩

/-- C3: every GET passes directly through to the ORM — `get` when all key
parameters are present, `query` when only the hash key of a hash+range model is
present, `scan` when no key parameter is present — and translates exceptions
generically: `DoesNotExist` becomes a "Record not found" error with status 404,
any other exception an error with status 500. -/
theorem C3_get_passthrough (cls : ResourceCls) (orm : Orm) (args : Data)
    (hv rv : String) :
    (∀ rk, cls.range_keyname = some rk →
      (ModelResource.get_req cls orm args (some hv) (some rv)).1 =
          [.getRecord hv (some rv)]
      ∧ (∀ r, orm.getRecord hv (some rv) = .ok r →
          (ModelResource.get_req cls orm args (some hv) (some rv)).2 = .record r)
      ∧ (orm.getRecord hv (some rv) = .error .doesNotExist →
          (ModelResource.get_req cls orm args (some hv) (some rv)).2 =
            .err "Record not found" 404)
      ∧ (∀ e, orm.getRecord hv (some rv) = .error e → e ≠ .doesNotExist →
          (ModelResource.get_req cls orm args (some hv) (some rv)).2 = .err e.msg 500))
  ∧ (cls.range_keyname = none →
      (ModelResource.get_req cls orm args (some hv) none).1 = [.getRecord hv none]
      ∧ (∀ r, orm.getRecord hv none = .ok r →
          (ModelResource.get_req cls orm args (some hv) none).2 = .record r)
      ∧ (orm.getRecord hv none = .error .doesNotExist →
          (ModelResource.get_req cls orm args (some hv) none).2 =
            .err "Record not found" 404)
      ∧ (∀ e, orm.getRecord hv none = .error e → e ≠ .doesNotExist →
          (ModelResource.get_req cls orm args (some hv) none).2 = .err e.msg 500))
  ∧ (∀ rk, cls.range_keyname = some rk →
      (ModelResource.get_req cls orm args (some hv) none).1 =
          [.query hv (build_filters cls args)]
      ∧ (∀ rs, orm.query hv (build_filters cls args) = .ok rs →
          (ModelResource.get_req cls orm args (some hv) none).2 = .records rs)
      ∧ (orm.query hv (build_filters cls args) = .error .doesNotExist →
          (ModelResource.get_req cls orm args (some hv) none).2 =
            .err "Record not found" 404)
      ∧ (∀ e, orm.query hv (build_filters cls args) = .error e → e ≠ .doesNotExist →
          (ModelResource.get_req cls orm args (some hv) none).2 = .err e.msg 500))
  ∧ ((ModelResource.get_req cls orm args none none).1 =
          [.scan (build_filters cls args)]
      ∧ (∀ rs, orm.scan (build_filters cls args) = .ok rs →
          (ModelResource.get_req cls orm args none none).2 = .records rs)
      ∧ (orm.scan (build_filters cls args) = .error .doesNotExist →
          (ModelResource.get_req cls orm args none none).2 =
            .err "Record not found" 404)
      ∧ (∀ e, orm.scan (build_filters cls args) = .error e → e ≠ .doesNotExist →
          (ModelResource.get_req cls orm args none none).2 = .err e.msg 500)) := by
  refine ⟨fun rk hrk => ⟨?_, fun r h => ?_, fun h => ?_, fun e h hne => ?_⟩,
          fun hnr => ⟨?_, fun r h => ?_, fun h => ?_, fun e h hne => ?_⟩,
          fun rk hrk => ⟨?_, fun rs h => ?_, fun h => ?_, fun e h hne => ?_⟩,
          ⟨?_, fun rs h => ?_, fun h => ?_, fun e h hne => ?_⟩⟩
  case _ => simp [ModelResource.get_req, hrk]
  case _ => simp [ModelResource.get_req, hrk, h]
  case _ => simp [ModelResource.get_req, hrk, h]
  case _ => cases e <;> simp_all [ModelResource.get_req, PyExc.msg]
  case _ => simp [ModelResource.get_req, hnr]
  case _ => simp [ModelResource.get_req, hnr, h]
  case _ => simp [ModelResource.get_req, hnr, h]
  case _ => cases e <;> simp_all [ModelResource.get_req, PyExc.msg]
  case _ => simp [ModelResource.get_req, hrk]
  case _ => simp [ModelResource.get_req, hrk, h]
  case _ => simp [ModelResource.get_req, hrk, h]
  case _ => cases e <;> simp_all [ModelResource.get_req, PyExc.msg]
  case _ => simp [ModelResource.get_req]
  case _ => simp [ModelResource.get_req, h]
  case _ => simp [ModelResource.get_req, h]
  case _ => cases e <;> simp_all [ModelResource.get_req, PyExc.msg]

/-- Witness for C3 at concrete inputs: a hash+range GET whose `get` raises
DoesNotExist (404), a hash-only GET whose `get` raises a generic exception
(500), a hash-only-parameter GET on a hash+range model (query), and a GET with
no key parameters (scan). -/
theorem C3_get_passthrough_witness :
    (ModelResource.get_req clsHR ormDNE [] (some "f") (some "t")).2 =
      .err "Record not found" 404
  ∧ (ModelResource.get_req clsH ormBoom [] (some "o") none).2 = .err "boom" 500
  ∧ (ModelResource.get_req clsHR ormOkEmpty [] (some "f") none).1 = [.query "f" []]
  ∧ (ModelResource.get_req clsHR ormOkEmpty [] none none).1 = [.scan []] :=
  ⟨((C3_get_passthrough clsHR ormDNE [] "f" "t").1 "thread" rfl).2.2.1 rfl,
   ((C3_get_passthrough clsH ormBoom [] "o" "x").2.1 rfl).2.2.2 (.otherExc "boom") rfl
     (by decide),
   ((C3_get_passthrough clsHR ormOkEmpty [] "f" "x").2.2.1 "thread" rfl).1,
   ((C3_get_passthrough clsHR ormOkEmpty [] "x" "x").2.2.2).1⟩

/-- C4: a POST (create) whose body passes validation checks the keyed record's
existence first: when a record with the same hash key (and range key, when the
model has one) exists the response is status 409 "Record already exists" and
nothing is saved (the call trace holds only the `get`); when none exists the
record is saved and the response is status 201 whose Location is formed from
the key values. -/
theorem C4_post_create (cls : ResourceCls) (orm : Orm)
    (dser : Data → Except PyExc Data) (data d : Data) (hv : String)
    (hds : dser data = .ok d)
    (hhv : d.lookup cls.hash_keyname = some hv)
    (hsl : strContains hv '/' = false) :
    (cls.range_keyname = none →
      ((∀ old, orm.getRecord hv none = .ok old →
          ModelResource.post_req cls orm dser [] (some data) =
            ([.getRecord hv none], .err "Record already exists" 409))
       ∧ (orm.getRecord hv none = .error .doesNotExist → orm.save d = .ok () →
          ModelResource.post_req cls orm dser [] (some data) =
            ([.getRecord hv none, .save d], .created d hv))))
  ∧ (∀ rk rv, cls.range_keyname = some rk → d.lookup rk = some rv →
      strContains rv '/' = false →
      ((∀ old, orm.getRecord hv (some rv) = .ok old →
          ModelResource.post_req cls orm dser [] (some data) =
            ([.getRecord hv (some rv)], .err "Record already exists" 409))
       ∧ (orm.getRecord hv (some rv) = .error .doesNotExist →
          orm.save d = .ok () →
          ModelResource.post_req cls orm dser [] (some data) =
            ([.getRecord hv (some rv), .save d],
             .created d (hv ++ "/" ++ rv))))) := by
  refine ⟨fun hnr => ⟨fun old hg => ?_, fun hg hs => ?_⟩,
          fun rk rv hrk hrv hsr => ⟨fun old hg => ?_, fun hg hs => ?_⟩⟩
  case _ =>
    simp [ModelResource.post_req, ModelResource.save_req, checkKeys, hds, hhv, hsl,
      hnr, save_action, hg]
  case _ =>
    simp [ModelResource.post_req, ModelResource.save_req, checkKeys, hds, hhv, hsl,
      hnr, save_action, hg, hs]
  case _ =>
    simp [ModelResource.post_req, ModelResource.save_req, checkKeys, hds, hhv, hsl,
      hrk, hrv, hsr, save_action, hg]
  case _ =>
    simp [ModelResource.post_req, ModelResource.save_req, checkKeys, hds, hhv, hsl,
      hrk, hrv, hsr, save_action, hg, hs]

/-- Witness for C4 at concrete inputs. -/
theorem C4_post_create_witness :
    ModelResource.post_req clsH ormOkEmpty dserId [] (some [("office", "a")]) =
      ([.getRecord "a" none], .err "Record already exists" 409)
  ∧ ModelResource.post_req clsH ormDNE dserId [] (some [("office", "a")]) =
      ([.getRecord "a" none, .save [("office", "a")]],
       .created [("office", "a")] "a")
  ∧ ModelResource.post_req clsHR ormDNE dserId []
        (some [("forum", "f"), ("thread", "t")]) =
      ([.getRecord "f" (some "t"), .save [("forum", "f"), ("thread", "t")]],
       .created [("forum", "f"), ("thread", "t")] ("f" ++ "/" ++ "t")) :=
  ⟨((C4_post_create clsH ormOkEmpty dserId [("office", "a")] [("office", "a")] "a"
      rfl (by decide) (by decide)).1 rfl).1 [] rfl,
   ((C4_post_create clsH ormDNE dserId [("office", "a")] [("office", "a")] "a"
      rfl (by decide) (by decide)).1 rfl).2 rfl rfl,
   ((C4_post_create clsHR ormDNE dserId [("forum", "f"), ("thread", "t")]
      [("forum", "f"), ("thread", "t")] "f" rfl (by decide) (by decide)).2
      "thread" "t" rfl (by decide) (by decide)).2 rfl rfl⟩

/-- C5: a DELETE addressed with a full set of key parameters deletes the
record and returns status 204 with an empty body when it exists; a
`DoesNotExist` raised by the ORM yields status 404 with a "Record not found"
error; any other exception yields status 500 and no deletion is attempted
(the call trace contains no delete). -/
theorem C5_delete_behavior (cls : ResourceCls) (orm : Orm) (hv rv : String) :
    (∀ rk, cls.range_keyname = some rk →
      ((∀ r, orm.getRecord hv (some rv) = .ok r →
          orm.deleteRecord hv (some rv) = .ok () →
          ModelResource.delete_req cls orm (some hv) (some rv) =
            ([.getRecord hv (some rv), .deleteRecord hv (some rv)], .noContent))
       ∧ (orm.getRecord hv (some rv) = .error .doesNotExist →
          ModelResource.delete_req cls orm (some hv) (some rv) =
            ([.getRecord hv (some rv)], .err "Record not found" 404))
       ∧ (∀ e, orm.getRecord hv (some rv) = .error e → e ≠ .doesNotExist →
          ModelResource.delete_req cls orm (some hv) (some rv) =
            ([.getRecord hv (some rv)], .err e.msg 500))))
  ∧ (cls.range_keyname = none →
      ((∀ r, orm.getRecord hv none = .ok r → orm.deleteRecord hv none = .ok () →
          ModelResource.delete_req cls orm (some hv) none =
            ([.getRecord hv none, .deleteRecord hv none], .noContent))
       ∧ (orm.getRecord hv none = .error .doesNotExist →
          ModelResource.delete_req cls orm (some hv) none =
            ([.getRecord hv none], .err "Record not found" 404))
       ∧ (∀ e, orm.getRecord hv none = .error e → e ≠ .doesNotExist →
          ModelResource.delete_req cls orm (some hv) none =
            ([.getRecord hv none], .err e.msg 500)))) := by
  refine ⟨fun rk hrk => ⟨fun r hg hd => ?_, fun hg => ?_, fun e hg hne => ?_⟩,
          fun hnr => ⟨fun r hg hd => ?_, fun hg => ?_, fun e hg hne => ?_⟩⟩
  case _ => simp [ModelResource.delete_req, hrk, hg, hd]
  case _ => simp [ModelResource.delete_req, hrk, hg]
  case _ => cases e <;> simp_all [ModelResource.delete_req, PyExc.msg]
  case _ => simp [ModelResource.delete_req, hnr, hg, hd]
  case _ => simp [ModelResource.delete_req, hnr, hg]
  case _ => cases e <;> simp_all [ModelResource.delete_req, PyExc.msg]

/-- Witness for C5 at concrete inputs. -/
theorem C5_delete_behavior_witness :
    ModelResource.delete_req clsHR ormOkEmpty (some "f") (some "t") =
      ([.getRecord "f" (some "t"), .deleteRecord "f" (some "t")], .noContent)
  ∧ ModelResource.delete_req clsH ormDNE (some "o") none =
      ([.getRecord "o" none], .err "Record not found" 404)
  ∧ ModelResource.delete_req clsH ormBoom (some "o") none =
      ([.getRecord "o" none], .err "boom" 500) :=
  ⟨((C5_delete_behavior clsHR ormOkEmpty "f" "t").1 "thread" rfl).1 [] rfl rfl,
   ((C5_delete_behavior clsH ormDNE "o" "x").2 rfl).2.1 rfl,
   ((C5_delete_behavior clsH ormBoom "o" "x").2 rfl).2.2 (.otherExc "boom") rfl
     (by decide)⟩

/-- C6: the generated wire schema of a model is an object whose properties
hold one entry per model attribute, derived from the attribute translation,
and whose required list holds exactly the hash key attribute's name and (when
present) the range key attribute's name, and no other name. -/
theorem C6_model_schema (mn : String) (attrs : List AttrDef) (hk : String)
    (rks : List String)
    (hnd : (attrs.map AttrDef.name).Nodup)
    (hhk : (attrs.filter (fun a => a.is_hash_key)).map AttrDef.name = [hk])
    (hrk : (attrs.filter (fun a => a.is_range_key)).map AttrDef.name = rks) :
    (PynamoModel.schema (PynamoModel.translate mn attrs)).type = "object"
  ∧ (PynamoModel.schema (PynamoModel.translate mn attrs)).properties =
      attrs.map (fun a => (a.name, translate_attribute mn a.name a.kind))
  ∧ (∀ n, n ∈ (PynamoModel.schema (PynamoModel.translate mn attrs)).required ↔
      (n = hk ∨ n ∈ rks)) := by
  refine ⟨rfl, ?_, ?_⟩
  · have h := translateAttrsInto_fst_eq mn attrs [] [] (by simp) hnd
    simpa [PynamoModel.schema, PynamoModel.translate] using h
  · intro n
    have hreq := translateAttrsInto_req_mem mn attrs [] [] n
    have hsplit : (∃ a ∈ attrs, a.name = n ∧
          (a.is_hash_key = true ∨ a.is_range_key = true)) ↔
        ((∃ a ∈ attrs, a.name = n ∧ a.is_hash_key = true) ∨
         (∃ a ∈ attrs, a.name = n ∧ a.is_range_key = true)) := by
      constructor
      · rintro ⟨a, ha, hn, (h | h)⟩
        · exact Or.inl ⟨a, ha, hn, h⟩
        · exact Or.inr ⟨a, ha, hn, h⟩
      · rintro (⟨a, ha, hn, h⟩ | ⟨a, ha, hn, h⟩)
        · exact ⟨a, ha, hn, Or.inl h⟩
        · exact ⟨a, ha, hn, Or.inr h⟩
    have hfilh : n ∈ (attrs.filter (fun a => a.is_hash_key)).map AttrDef.name ↔
        ∃ a ∈ attrs, a.name = n ∧ a.is_hash_key = true := by
      rw [List.mem_map]
      constructor
      · rintro ⟨a, ha, hn⟩
        exact ⟨a, (List.mem_filter.mp ha).1, hn, (List.mem_filter.mp ha).2⟩
      · rintro ⟨a, ha, hn, hpa⟩
        exact ⟨a, List.mem_filter.mpr ⟨ha, hpa⟩, hn⟩
    have hfilr : n ∈ (attrs.filter (fun a => a.is_range_key)).map AttrDef.name ↔
        ∃ a ∈ attrs, a.name = n ∧ a.is_range_key = true := by
      rw [List.mem_map]
      constructor
      · rintro ⟨a, ha, hn⟩
        exact ⟨a, (List.mem_filter.mp ha).1, hn, (List.mem_filter.mp ha).2⟩
      · rintro ⟨a, ha, hn, hpa⟩
        exact ⟨a, List.mem_filter.mpr ⟨ha, hpa⟩, hn⟩
    rw [show (PynamoModel.schema (PynamoModel.translate mn attrs)).required =
        (translateAttrsInto mn [] [] attrs).2 from rfl]
    rw [hreq, hsplit, ← hfilh, ← hfilr, hhk, hrk]
    simp

/-- Witness for C6 at a concrete hash+range model. -/
theorem C6_model_schema_witness :
    (PynamoModel.schema (PynamoModel.translate "TestModel" attrsHR)).type = "object"
  ∧ (PynamoModel.schema (PynamoModel.translate "TestModel" attrsHR)).properties =
      [("forum", .String), ("thread", .String), ("views", .PynamoNumber)]
  ∧ ("views" ∈ (PynamoModel.schema (PynamoModel.translate "TestModel" attrsHR)).required ↔
      ("views" = "forum" ∨ "views" ∈ ["thread"])) :=
  ⟨(C6_model_schema "TestModel" attrsHR "forum" ["thread"]
      (by decide) (by decide) (by decide)).1,
   (C6_model_schema "TestModel" attrsHR "forum" ["thread"]
      (by decide) (by decide) (by decide)).2.1,
   (C6_model_schema "TestModel" attrsHR "forum" ["thread"]
      (by decide) (by decide) (by decide)).2.2 "views"⟩

/-- C7: the attributes exposed in an index's generated schema are determined
by its projection: with AllProjection every parent-model attribute is
included; with IncludeProjection exactly the index's own (key) attributes plus
the projection's listed non-key attributes that exist on the parent; with any
other projection (such as keys-only) exactly the index's own key attributes. -/
theorem C7_index_projection (idx : IndexDef)
    (hnd : (idx.attrs.map AttrDef.name).Nodup)
    (hkeys : ∀ a ∈ idx.attrs, a.is_hash_key = true ∨ a.is_range_key = true) :
    (idx.projection = .allProj →
      ∀ a ∈ idx.parentAttrs,
        a.name ∈
          (PynamoModel.schema (PynamoModel.translateIndex idx)).properties.map Prod.fst)
  ∧ (∀ pk, idx.projection = .includeProj pk →
      ∀ n, n ∈
          (PynamoModel.schema (PynamoModel.translateIndex idx)).properties.map Prod.fst ↔
        (n ∈ idx.attrs.map AttrDef.name ∨
          (n ∈ pk ∧ n ∈ idx.parentAttrs.map AttrDef.name)))
  ∧ ((idx.projection = .keysOnlyProj ∨ idx.projection = .otherProj) →
      (PynamoModel.schema (PynamoModel.translateIndex idx)).properties.map Prod.fst =
        idx.attrs.map AttrDef.name) := by
  refine ⟨fun hall a ha => ?_, fun pk hinc n => ?_, fun hko => ?_⟩
  · have hprops : (PynamoModel.schema (PynamoModel.translateIndex idx)).properties =
        projectInto idx.name (translateAttrsInto idx.name [] [] idx.attrs).1
          idx.parentAttrs (idx.parentAttrs.map AttrDef.name) := by
      simp [PynamoModel.translateIndex, hall, PynamoModel.schema]
    rw [hprops, projectInto_keys_mem]
    exact Or.inr ⟨a, ha, rfl, List.mem_map_of_mem AttrDef.name ha⟩
  · have hprops : (PynamoModel.schema (PynamoModel.translateIndex idx)).properties =
        projectInto idx.name (translateAttrsInto idx.name [] [] idx.attrs).1
          idx.parentAttrs pk := by
      simp [PynamoModel.translateIndex, hinc, PynamoModel.schema]
    rw [hprops, projectInto_keys_mem, translateAttrsInto_keys_mem]
    constructor
    · rintro ((h | ⟨b, hb, rfl⟩) | ⟨b, hb, rfl, hbpk⟩)
      · exact absurd h (by simp)
      · exact Or.inl (List.mem_map_of_mem AttrDef.name hb)
      · exact Or.inr ⟨hbpk, List.mem_map_of_mem AttrDef.name hb⟩
    · rintro (h | ⟨hpk', hpar⟩)
      · rcases List.mem_map.mp h with ⟨b, hb, rfl⟩
        exact Or.inl (Or.inr ⟨b, hb, rfl⟩)
      · rcases List.mem_map.mp hpar with ⟨b, hb, rfl⟩
        exact Or.inr ⟨b, hb, rfl, hpk'⟩
  · have hbase : PynamoModel.translateIndex idx =
        translateAttrsInto idx.name [] [] idx.attrs := by
      rcases hko with h | h <;> simp [PynamoModel.translateIndex, h]
    rw [show (PynamoModel.schema (PynamoModel.translateIndex idx)).properties =
        (PynamoModel.translateIndex idx).1 from rfl, hbase,
      translateAttrsInto_fst_eq idx.name idx.attrs [] [] (by simp) hnd]
    simp [List.map_map, Function.comp]

/-- Witness for C7 at concrete indexes under each projection class. -/
theorem C7_index_projection_witness :
    "forum" ∈
      (PynamoModel.schema (PynamoModel.translateIndex idxAll)).properties.map Prod.fst
  ∧ ("views" ∈
      (PynamoModel.schema (PynamoModel.translateIndex idxInc)).properties.map Prod.fst ↔
      ("views" ∈ idxAttrs.map AttrDef.name ∨
        ("views" ∈ ["views"] ∧ "views" ∈ attrsHR.map AttrDef.name)))
  ∧ (PynamoModel.schema (PynamoModel.translateIndex idxKO)).properties.map Prod.fst =
      idxAttrs.map AttrDef.name :=
  ⟨(C7_index_projection idxAll (by decide) (by decide)).1 rfl
      ⟨"forum", .UnicodeAttribute, true, false⟩ (by decide),
   (C7_index_projection idxInc (by decide) (by decide)).2.1 ["views"] rfl "views",
   (C7_index_projection idxKO (by decide) (by decide)).2.2 (Or.inl rfl)⟩

/-- C8: a PUT or POST carrying URL key parameters whose value differs from the
same-named field of the request body is rejected with status 400 and message
"Cannot change hash or range keys with PUT", and nothing is saved (the ORM
call trace is empty). -/
theorem C8_key_mismatch_rejected (cls : ResourceCls) (orm : Orm)
    (dser : Data → Except PyExc Data) (kwargs data : Data) (k v dv : String)
    (hall : ∀ p ∈ kwargs, (data.lookup p.1).isSome = true)
    (hmem : (k, v) ∈ kwargs)
    (hdv : data.lookup k = some dv) (hne : dv ≠ v) :
    ModelResource.put_req cls orm dser kwargs (some data) =
      ([], .err "Cannot change hash or range keys with PUT" 400)
  ∧ ModelResource.post_req cls orm dser kwargs (some data) =
      ([], .err "Cannot change hash or range keys with PUT" 400) := by
  have hck := checkKeys_mismatch kwargs data hall k v dv hmem hdv hne
  constructor <;>
    simp [ModelResource.put_req, ModelResource.post_req, ModelResource.save_req, hck]

/-- Witness for C8 at concrete inputs. -/
theorem C8_key_mismatch_rejected_witness :
    ModelResource.put_req clsHR ormOkEmpty dserId [("forum", "a")]
        (some [("forum", "b"), ("thread", "t")]) =
      ([], .err "Cannot change hash or range keys with PUT" 400) :=
  (C8_key_mismatch_rejected clsHR ormOkEmpty dserId [("forum", "a")]
    [("forum", "b"), ("thread", "t")] "forum" "a" "b"
    (by decide) (by decide) (by decide) (by decide)).1

/-- C9: a POST or PUT whose deserialized hash key value — or range key value,
when the model has a range key — contains a forward slash is rejected with
status 400 and a message that the key may not contain forward slashes, and
nothing is saved (the ORM call trace is empty). -/
theorem C9_slash_rejected (cls : ResourceCls) (orm : Orm)
    (dser : Data → Except PyExc Data) (create : Bool) (kwargs data d : Data)
    (hck : checkKeys kwargs data = .ok false)
    (hds : dser data = .ok d) :
    (∀ hv, d.lookup cls.hash_keyname = some hv → strContains hv '/' = true →
      ModelResource.save_req cls orm dser create kwargs (some data) =
        ([], .err (cls.hash_keyname ++ " may not contain forward slashes") 400))
  ∧ (∀ hv rk rv, d.lookup cls.hash_keyname = some hv → strContains hv '/' = false →
      cls.range_keyname = some rk → d.lookup rk = some rv →
      strContains rv '/' = true →
      ModelResource.save_req cls orm dser create kwargs (some data) =
        ([], .err (rk ++ " may not contain forward slashes") 400)) := by
  constructor
  · intro hv hl hsl
    simp [ModelResource.save_req, hck, hds, hl, hsl]
  · intro hv rk rv hl hsl hrk hrv hsr
    simp [ModelResource.save_req, hck, hds, hl, hsl, hrk, hrv, hsr]

/-- Witness for C9 at concrete inputs. -/
theorem C9_slash_rejected_witness :
    ModelResource.save_req clsH ormOkEmpty dserId true [] (some [("office", "a/b")]) =
      ([], .err ("office" ++ " may not contain forward slashes") 400)
  ∧ ModelResource.save_req clsHR ormOkEmpty dserId false []
        (some [("forum", "f"), ("thread", "t/u")]) =
      ([], .err ("thread" ++ " may not contain forward slashes") 400) :=
  ⟨(C9_slash_rejected clsH ormOkEmpty dserId true [] [("office", "a/b")]
      [("office", "a/b")] rfl rfl).1 "a/b" (by decide) (by decide),
   (C9_slash_rejected clsHR ormOkEmpty dserId false []
      [("forum", "f"), ("thread", "t/u")] [("forum", "f"), ("thread", "t/u")]
      rfl rfl).2 "f" "thread" "t/u" (by decide) (by decide) rfl (by decide)
      (by decide)⟩

/-- C10: `PynamoNumber.format` is total and deterministic on its supported
inputs: `None` returns `None`; a string containing a dot returns its float
value; a string without a dot returns its integer value; an int or float is
returned unchanged; any other input raises `ValueError`. -/
theorem C10_pynamonumber_format :
    PynamoNumber.format .pynone = .ok .pynone
  ∧ (∀ s q, strContains s '.' = true → parseFloatStr? s = some q →
      PynamoNumber.format (.pystr s) = .ok (.pyfloat q))
  ∧ (∀ s n, strContains s '.' = false → parseIntStr? s = some n →
      PynamoNumber.format (.pystr s) = .ok (.pyint n))
  ∧ (∀ n, PynamoNumber.format (.pyint n) = .ok (.pyint n))
  ∧ (∀ d, PynamoNumber.format (.pyfloat d) = .ok (.pyfloat d))
  ∧ (∀ o, PynamoNumber.format (.pyother o) = .error "Unsupported number format") := by
  refine ⟨rfl, fun s q hc hp => ?_, fun s n hc hp => ?_, fun n => rfl, fun d => rfl,
    fun o => rfl⟩
  · simp [PynamoNumber.format, hc, hp]
  · simp [PynamoNumber.format, hc, hp]

/-- Witness for C10 at concrete inputs. -/
theorem C10_pynamonumber_format_witness :
    strContains "2.5" '.' = true
  ∧ parseFloatStr? "2.5" = some ⟨25, 1⟩
  ∧ PynamoNumber.format (.pystr "2.5") = .ok (.pyfloat ⟨25, 1⟩)
  ∧ strContains "42" '.' = false
  ∧ parseIntStr? "42" = some 42
  ∧ PynamoNumber.format (.pystr "42") = .ok (.pyint 42) :=
  ⟨by decide, by decide,
   C10_pynamonumber_format.2.1 "2.5" ⟨25, 1⟩ (by decide) (by decide),
   by decide, by decide,
   C10_pynamonumber_format.2.2.1 "42" 42 (by decide) (by decide)⟩
